import Mathlib

/-!
Verification of the chat-merger example bots repository.

Part 1 embeds the `read_file_bot` handler of
`experiments/mergedbots_copilot/repo_bots.py` together with a model of the
repository filesystem, and proves the membership-check / path-safety /
two-message properties.

Part 2 embeds the `AutoGPT` agent loop of
`experiments/repo_inspector/autogpt/obsolete_agent.py` (state, per-iteration
step, and the fuel-driven run over an oracle of model replies and human
feedback), and proves the recording, termination and error-handling
properties of the loop.
-/

/-- Whether the string `s` begins with the string `pre` (stated on the
underlying character lists). -/
def strStartsWith (pre s : String) : Bool :=
  pre.toList.isPrefixOf s.toList

namespace RepoBots

/-- A model of the repository directory: an association of repo-relative
posix path strings to the decoded UTF-8 text content of each file. -/
abbrev FileSys := List (String × String)

/-- Split a character list on the slash character. -/
def splitSegs : List Char → List (List Char)
  | [] => [[]]
  | c :: cs =>
    let r := splitSegs cs
    if c = '/' then [] :: r
    else
      match r with
      | [] => [[c]]
      | s :: rest => (c :: s) :: rest

/-- Path segments of a posix path string (split on the slash). -/
def pathSegments (p : String) : List String :=
  (splitSegs p.toList).map String.mk

/-- A segment that names an actual directory entry: not empty, not the
current-directory dot, not the parent-directory dot-dot. -/
def plainSegment (s : String) : Bool :=
  !(s == "") && !(s == ".") && !(s == "..")

/-- A well-formed repo-relative file path: every segment is a plain name.
Paths actually enumerated inside a directory tree have this form. -/
def isWfRelPath (p : String) : Bool := (pathSegments p).all plainSegment

/-- Depth tracking for path resolution relative to a root: `none` means the
path has escaped above the root at some point. -/
def stepDepth (d : Option Nat) (s : String) : Option Nat :=
  match d with
  | none => none
  | some n =>
    if s == "" || s == "." then some n
    else if s == ".." then (if n == 0 then none else some (n - 1))
    else some (n + 1)

/-- A path stays inside the root directory it is resolved against:
processing its segments left to right never climbs above the root. -/
def staysInRoot (p : String) : Bool :=
  ((pathSegments p).foldl stepDepth (some 0)).isSome

/-- Modelled from the spec: `list_files_in_repo`
(`experiments/common/repo_access_utils`, not under `src/`) "enumerates
repository files" as repo-relative posix paths ("all paths are relative and
must resolve inside that root").  On the filesystem model it returns the
paths of the files under the root; only well-formed relative paths can be
produced by enumerating a real directory tree. -/
def list_files_in_repo (fs : FileSys) : List String :=
  (fs.filter (fun e => isWfRelPath e.1)).map Prod.fst

/-- `Path(REPO_DIR, file_path).read_text(encoding="utf-8")`: the decoded
content of the file at the given repo-relative path, or `none` when the
read raises (file missing). -/
def read_text (fs : FileSys) (p : String) : Option String :=
  (fs.find? (fun e => e.1 == p)).map Prod.snd

/-- An outbound message of the handler: `interim_bot_response` or
`final_bot_response` (the latter carrying the `success` custom field). -/
inductive BotMessage
  | interim (content : String)
  | final (content : String) (success : Bool)
deriving Repr, DecidableEq

/-- Result of one run of the handler: the messages it yields (`none` models
an uncaught exception from the disk read), and the list of repo-relative
paths it actually read from disk. -/
structure ReadFileResult where
  messages : Option (List BotMessage)
  reads : List String
deriving Repr, DecidableEq

/-- The fallback text of `read_file_bot`. -/
def fallbackMessage : String := "Please specify a file you want to read."

/-- `read_file_bot` of `repo_bots.py`, after the file list has been obtained
from `list_repo_tool` and the extractor chain has produced `file_path`
(the extractor output is an arbitrary string here, the model call being
opaque).  `if file_path and file_path in file_set:` yields the interim
path message and then the final file content; otherwise the final
fallback message. -/
def read_file_bot (fs : FileSys) (file_path : String) : ReadFileResult :=
  let file_set := list_files_in_repo fs
  if file_path ≠ "" ∧ file_path ∈ file_set then
    { messages := (read_text fs file_path).map (fun content =>
        [BotMessage.interim file_path, BotMessage.final content true])
      reads := [file_path] }
  else
    { messages := some [BotMessage.final fallbackMessage false]
      reads := [] }

/-- A concrete two-file repository used to instantiate the handler
theorems. -/
def demoFS : FileSys := [("a.py", "hello"), ("b.py", "world")]

end RepoBots

namespace ObsoleteAgent

/-- A transcript entry of `full_message_history`: `HumanMessage`,
`AIMessage` or `SystemMessage`. -/
inductive ChatMsg
  | human (content : String)
  | ai (content : String)
  | system (content : String)
deriving Repr, DecidableEq

/-- Whether a transcript entry is a system-role observation. -/
def ChatMsg.isSystem : ChatMsg → Bool
  | .system _ => true
  | _ => false

/-- A parsed command: name plus argument mapping, as produced by
`output_parser.parse`. -/
structure AgentAction where
  name : String
  args : List (String × String)
deriving Repr, DecidableEq

/-- Python `repr` of a string (quotes; escape handling is irrelevant to the
properties proved here). -/
def pyStrRepr (s : String) : String := "\x27" ++ s ++ "\x27"

/-- Python `str` of the argument dict, as interpolated into the error
observations. -/
def argsRepr (args : List (String × String)) : String :=
  "\x7b" ++ String.intercalate ", "
    (args.map (fun kv => pyStrRepr kv.1 ++ ": " ++ pyStrRepr kv.2)) ++ "\x7d"

/-- Outcome of `tool.run(action.args)`: a returned string, a raised
`ValidationError`, or any other raised exception (type name + message). -/
inductive ToolOutcome
  | ok (output : String)
  | validationError (msg : String)
  | raised (exTy : String) (msg : String)
deriving Repr, DecidableEq

/-- A registered tool: a name and the behaviour of `run` on an argument
mapping. -/
structure AgentTool where
  name : String
  run : List (String × String) → ToolOutcome

/-- `FINISH_NAME`, imported by the agent from
`langchain...autogpt.prompt_generator` (its value there is `"finish"`). -/
def FINISH_NAME : String := "finish"

/-- The name of the `MergedBotsHumanInputRun` tool (`name = "Human"`). -/
def humanToolName : String := "Human"

/-- The fixed user-turn text of each iteration. -/
def userInput : String :=
  "Determine which next command to use, and respond using the format specified above:"

/-- The state the loop mutates: the transcript (`full_message_history`) and
the memory store, modelled as the list of inserted documents. -/
structure AgentState where
  history : List ChatMsg
  memory : List String
deriving Repr, DecidableEq

/-- The agent as configured: the dispatchable tools (`self.tools`), the
names advertised in the prompt, whether a feedback tool is configured,
and the output parser. -/
structure AutoGPTModel where
  promptToolNames : List String
  tools : List AgentTool
  hasFeedback : Bool
  parse : String → AgentAction

/-- `{t.name: t for t in self.tools}` followed by lookup: a Python dict
comprehension keeps the last tool with a given name. -/
def lookupTool (ts : List AgentTool) (n : String) : Option AgentTool :=
  ts.reverse.find? (fun t => t.name == n)

/-- The `observation` string computed in the `try`/`except` block around
`tool.run(action.args)`. -/
def toolObservation (t : AgentTool) (args : List (String × String)) : String :=
  match t.run args with
  | .ok s => s
  | .validationError e =>
      "Validation Error in args: " ++ e ++ ", args: " ++ argsRepr args
  | .raised ty e =>
      "Error: " ++ e ++ ", " ++ ty ++ ", args: " ++ argsRepr args

/-- The `result` string for a non-finish action: registered tool, the
`"ERROR"` parse-failure sentinel, or an unknown command. -/
def dispatchResult (ts : List AgentTool) (a : AgentAction) : String :=
  match lookupTool ts a.name with
  | some t => "Command " ++ t.name ++ " returned: " ++ toolObservation t a.args
  | none =>
    if a.name = "ERROR" then "Error: " ++ argsRepr a.args ++ ". "
    else
      "Unknown command \x27" ++ a.name ++ "\x27. Please refer to the " ++
        "\x27COMMANDS\x27 list for available commands and only respond " ++
        "in the specified JSON format."

/-- The `memory_to_add` document before optional feedback is appended. -/
def memoryDoc (m : AutoGPTModel) (reply : String) : String :=
  "Assistant Reply: " ++ reply ++ " \nResult: " ++
    dispatchResult m.tools (m.parse reply) ++ " "

/-- Outcome of one loop iteration: continue with a new state, `return` a
value (a finish response or `"EXITING"`), or raise an uncaught `KeyError`
(finish action without a `"response"` argument). -/
inductive StepResult
  | next (st : AgentState)
  | returned (value : String) (st : AgentState)
  | keyError (st : AgentState)
deriving DecidableEq

/-- The state carried by a step result (the object state at the moment the
iteration ends, whichever way it ends). -/
def StepResult.state : StepResult → AgentState
  | .next st => st
  | .returned _ st => st
  | .keyError st => st

/-- One iteration of `AutoGPT.arun`, after the chain call produced `reply`
and given the feedback `feedback` the human tool would return if
consulted.  Appends the user turn and the reply to the transcript, parses
the action, handles finish / tool dispatch / `"ERROR"` / unknown command,
then records memory and the system observation, with the stop-token check
in between when a feedback tool is configured. -/
def AutoGPT.step (m : AutoGPTModel) (st : AgentState) (reply feedback : String) :
    StepResult :=
  let hist1 := st.history ++ [ChatMsg.human userInput, ChatMsg.ai reply]
  let action := m.parse reply
  if action.name = FINISH_NAME then
    match action.args.lookup "response" with
    | some r => .returned r { st with history := hist1 }
    | none => .keyError { st with history := hist1 }
  else
    let result := dispatchResult m.tools action
    if m.hasFeedback ∧ (feedback = "q" ∨ feedback = "stop") then
      .returned "EXITING" { history := hist1, memory := st.memory }
    else
      let doc :=
        if m.hasFeedback then memoryDoc m reply ++ "\n" ++ feedback
        else memoryDoc m reply
      .next { history := hist1 ++ [ChatMsg.system result]
              memory := st.memory ++ [doc] }

/-- How a run of the loop ends: a `return` (finish response or
`"EXITING"`), an uncaught `KeyError`, or the oracle of model replies ran
out (the loop itself has no iteration bound). -/
inductive RunOutcome
  | returned (value : String)
  | keyError
  | outOfReplies
deriving Repr, DecidableEq

/-- Result of a run: how it ended, the final object state, and the number
of language-model calls made (`chain.arun` is called exactly once per
iteration entered). -/
structure RunResult where
  outcome : RunOutcome
  finalState : AgentState
  llmCalls : Nat
deriving DecidableEq

/-- `AutoGPT.arun`: the interaction loop, driven by an oracle listing, for
each successive iteration, the model reply and the feedback the human
would give.  Each consumed oracle entry corresponds to exactly one
language-model call. -/
def AutoGPT.arun (m : AutoGPTModel) (st : AgentState) :
    List (String × String) → RunResult
  | [] => { outcome := .outOfReplies, finalState := st, llmCalls := 0 }
  | (reply, fb) :: rest =>
    match AutoGPT.step m st reply fb with
    | .next st' =>
      let r := AutoGPT.arun m st' rest
      { r with llmCalls := r.llmCalls + 1 }
    | .returned v st' => { outcome := .returned v, finalState := st', llmCalls := 1 }
    | .keyError st' => { outcome := .keyError, finalState := st', llmCalls := 1 }

/-- `AutoGPT.from_llm_and_tools`: the prompt advertises the tools plus the
human feedback tool (named `"Human"`), while the constructed agent's
dispatchable `tools` list is exactly the `tools` argument, with the
feedback tool kept separately as `feedback_tool`. -/
def AutoGPT.from_llm_and_tools (tools : List AgentTool)
    (parse : String → AgentAction) : AutoGPTModel :=
  { promptToolNames := tools.map (fun t => t.name) ++ [humanToolName]
    tools := tools
    hasFeedback := true
    parse := parse }

/-- A parser that always yields the same action, used to instantiate the
loop theorems on concrete runs. -/
def parseConst (a : AgentAction) : String → AgentAction := fun _ => a

/-- A tool whose run always succeeds. -/
def echoTool : AgentTool := { name := "echo", run := fun _ => .ok "done" }

/-- A tool whose run always raises a `ValidationError`. -/
def valTool : AgentTool :=
  { name := "val", run := fun _ => .validationError "field required" }

/-- A tool whose run always raises a general exception. -/
def boomTool : AgentTool :=
  { name := "boom", run := fun _ => .raised "FileNotFoundError" "missing" }

/-- Agent with a feedback tool whose parsed action dispatches `echoTool`
successfully. -/
def mEcho : AutoGPTModel :=
  { promptToolNames := ["echo", humanToolName]
    tools := [echoTool]
    hasFeedback := true
    parse := parseConst { name := "echo", args := [] } }

/-- Agent without feedback whose parsed action is a finish action carrying
a response argument. -/
def mFinish : AutoGPTModel :=
  { promptToolNames := []
    tools := []
    hasFeedback := false
    parse := parseConst { name := FINISH_NAME, args := [("response", "Done")] } }

/-- Agent without feedback whose parsed action is a finish action with no
`"response"` argument. -/
def mNoResp : AutoGPTModel :=
  { promptToolNames := []
    tools := []
    hasFeedback := false
    parse := parseConst { name := FINISH_NAME, args := [("text", "Done")] } }

/-- Agent without feedback whose parsed action dispatches `valTool`. -/
def mVal : AutoGPTModel :=
  { promptToolNames := ["val"]
    tools := [valTool]
    hasFeedback := false
    parse := parseConst { name := "val", args := [] } }

/-- Agent without feedback whose parsed action dispatches `boomTool`. -/
def mBoom : AutoGPTModel :=
  { promptToolNames := ["boom"]
    tools := [boomTool]
    hasFeedback := false
    parse := parseConst { name := "boom", args := [] } }

/-- Agent without feedback whose parsed action carries the `"ERROR"`
parse-failure sentinel name. -/
def mErrSentinel : AutoGPTModel :=
  { promptToolNames := []
    tools := []
    hasFeedback := false
    parse := parseConst { name := "ERROR", args := [] } }

/-- Agent without feedback whose parsed action names a command that is
neither a tool, nor finish, nor `"ERROR"`. -/
def mUnknown : AutoGPTModel :=
  { promptToolNames := []
    tools := []
    hasFeedback := false
    parse := parseConst { name := "mystery", args := [] } }

end ObsoleteAgent

/-! ## Properties of the `read_file_bot` handler -/

namespace RepoBots

theorem plainSegment_stepDepth (s : String) (n : Nat) (h : plainSegment s = true) :
    stepDepth (some n) s = some (n + 1) := by
  unfold plainSegment at h
  simp only [Bool.and_eq_true, Bool.not_eq_true'] at h
  unfold stepDepth
  simp [h.1.1, h.1.2, h.2]

theorem all_plain_foldl (l : List String) (n : Nat) (h : l.all plainSegment = true) :
    ((l.foldl stepDepth (some n)).isSome) = true := by
  induction l generalizing n with
  | nil => simp
  | cons s t ih =>
    simp only [List.all_cons, Bool.and_eq_true] at h
    rw [List.foldl_cons, plainSegment_stepDepth s n h.1]
    exact ih (n + 1) h.2

theorem wf_staysInRoot (p : String) (h : isWfRelPath p = true) :
    staysInRoot p = true := by
  unfold isWfRelPath at h
  unfold staysInRoot
  exact all_plain_foldl _ 0 h

theorem mem_list_wf (fs : FileSys) (p : String) (h : p ∈ list_files_in_repo fs) :
    isWfRelPath p = true := by
  unfold list_files_in_repo at h
  obtain ⟨e, he, rfl⟩ := List.mem_map.mp h
  exact (List.mem_filter.mp he).2

theorem mem_list_read (fs : FileSys) (p : String) (h : p ∈ list_files_in_repo fs) :
    ∃ c, read_text fs p = some c := by
  unfold list_files_in_repo at h
  obtain ⟨e, he, rfl⟩ := List.mem_map.mp h
  have hin : e ∈ fs := (List.mem_filter.mp he).1
  have hsome : (fs.find? (fun x => x.1 == e.1)).isSome = true :=
    List.find?_isSome.mpr ⟨e, hin, by simp⟩
  obtain ⟨x, hx⟩ := Option.isSome_iff_exists.mp hsome
  refine ⟨x.2, ?_⟩
  unfold read_text
  rw [hx]
  rfl

theorem reads_mem_list (fs : FileSys) (fp : String) :
    ∀ p ∈ (read_file_bot fs fp).reads, p ∈ list_files_in_repo fs := by
  intro p hp
  simp only [read_file_bot] at hp
  split at hp
  · next h =>
    simp only [List.mem_singleton] at hp
    subst hp
    exact h.2
  · simp at hp

theorem nonmember_fallback (fs : FileSys) (fp : String)
    (h : fp = "" ∨ fp ∉ list_files_in_repo fs) :
    read_file_bot fs fp =
      { messages := some [BotMessage.final fallbackMessage false], reads := [] } := by
  simp only [read_file_bot]
  split
  · next hc =>
    rcases h with h1 | h2
    · exact absurd h1 hc.1
    · exact absurd hc.2 h2
  · rfl

/-- C1: the read-file handler reads from disk only paths that are literal
members of the known file-list set; on an empty or non-member extracted
path it performs no disk read and returns the final fallback message
"Please specify a file you want to read.". -/
theorem read_file_bot_membership_guard (fs : FileSys) (fp : String) :
    (∀ p ∈ (read_file_bot fs fp).reads, p ∈ list_files_in_repo fs) ∧
    ((fp = "" ∨ fp ∉ list_files_in_repo fs) →
      read_file_bot fs fp =
        { messages := some [BotMessage.final fallbackMessage false], reads := [] }) :=
  ⟨reads_mem_list fs fp, nonmember_fallback fs fp⟩

/-- Witness for C1 at a concrete repository and a non-member path. -/
theorem read_file_bot_membership_guard_witness :
    (∀ p ∈ (read_file_bot demoFS "c.py").reads, p ∈ list_files_in_repo demoFS) ∧
    read_file_bot demoFS "c.py" =
      { messages := some [BotMessage.final fallbackMessage false], reads := [] } :=
  ⟨(read_file_bot_membership_guard demoFS "c.py").1,
   (read_file_bot_membership_guard demoFS "c.py").2 (Or.inr (by decide))⟩

/-- C4: every path the handler reads from disk resolves inside the root
repository directory, and whenever the extracted path would escape the
root (e.g. through ".." segments) the handler takes the fallback branch
and reads nothing. -/
theorem read_file_bot_no_escape (fs : FileSys) (fp : String) :
    (∀ p ∈ (read_file_bot fs fp).reads, staysInRoot p = true) ∧
    (staysInRoot fp = false →
      read_file_bot fs fp =
        { messages := some [BotMessage.final fallbackMessage false], reads := [] }) := by
  constructor
  · intro p hp
    exact wf_staysInRoot p (mem_list_wf fs p (reads_mem_list fs fp p hp))
  · intro h
    apply nonmember_fallback
    right
    intro hmem
    rw [wf_staysInRoot fp (mem_list_wf fs fp hmem)] at h
    simp at h

/-- Witness for C4 at a concrete repository and a traversal path. -/
theorem read_file_bot_no_escape_witness :
    (∀ p ∈ (read_file_bot demoFS "../etc/passwd").reads, staysInRoot p = true) ∧
    read_file_bot demoFS "../etc/passwd" =
      { messages := some [BotMessage.final fallbackMessage false], reads := [] } :=
  ⟨(read_file_bot_no_escape demoFS "../etc/passwd").1,
   (read_file_bot_no_escape demoFS "../etc/passwd").2 (by decide)⟩

/-- C8: whenever the extracted path is a member of the known file list, the
handler emits exactly two messages, the interim message carrying the path
and then the final message carrying the file content. -/
theorem read_file_bot_member_two_messages (fs : FileSys) (fp : String)
    (h : fp ∈ list_files_in_repo fs) :
    ∃ content, read_text fs fp = some content ∧
      (read_file_bot fs fp).messages =
        some [BotMessage.interim fp, BotMessage.final content true] := by
  obtain ⟨c, hc⟩ := mem_list_read fs fp h
  refine ⟨c, hc, ?_⟩
  have hne : fp ≠ "" := by
    intro he
    have hw := mem_list_wf fs fp h
    rw [he] at hw
    exact absurd hw (by decide)
  simp only [read_file_bot]
  rw [if_pos (⟨hne, h⟩ : fp ≠ "" ∧ fp ∈ list_files_in_repo fs)]
  rw [hc]
  rfl

/-- Witness for C8: requesting `a.py` in the concrete repository yields the
interim path message and the final content message. -/
theorem read_file_bot_member_two_messages_witness :
    (read_file_bot demoFS "a.py").messages =
      some [BotMessage.interim "a.py", BotMessage.final "hello" true] := by
  obtain ⟨c, hc, hm⟩ := read_file_bot_member_two_messages demoFS "a.py" (by decide)
  have h2 : read_text demoFS "a.py" = some "hello" := by decide
  rw [h2] at hc
  injection hc with h3
  rw [← h3] at hm
  exact hm

end RepoBots

/-! ## Properties of the `AutoGPT` agent loop -/

namespace ObsoleteAgent

theorem step_state_history (m : AutoGPTModel) (st : AgentState) (reply fb : String) :
    ∃ tail, ((AutoGPT.step m st reply fb).state).history = st.history ++ tail := by
  simp only [AutoGPT.step]
  split
  · split
    · exact ⟨_, rfl⟩
    · exact ⟨_, rfl⟩
  · split
    · exact ⟨_, rfl⟩
    · exact ⟨_, List.append_assoc _ _ _⟩

theorem arun_history_extends (m : AutoGPTModel) (oracle : List (String × String)) :
    ∀ st : AgentState,
      ∃ tail, (AutoGPT.arun m st oracle).finalState.history = st.history ++ tail := by
  induction oracle with
  | nil =>
    intro st
    exact ⟨[], by simp [AutoGPT.arun]⟩
  | cons e rest ih =>
    intro st
    obtain ⟨reply, fb⟩ := e
    obtain ⟨t1, ht1⟩ := step_state_history m st reply fb
    simp only [AutoGPT.arun]
    cases hstep : AutoGPT.step m st reply fb with
    | next st' =>
      rw [hstep] at ht1
      simp only [StepResult.state] at ht1
      obtain ⟨t2, ht2⟩ := ih st'
      refine ⟨t1 ++ t2, ?_⟩
      simp only []
      rw [ht2, ht1, List.append_assoc]
    | returned v st' =>
      rw [hstep] at ht1
      simp only [StepResult.state] at ht1
      exact ⟨t1, ht1⟩
    | keyError st' =>
      rw [hstep] at ht1
      simp only [StepResult.state] at ht1
      exact ⟨t1, ht1⟩

/-- C3: when the parsed action's name is the finish sentinel and a
`"response"` argument is present, the loop returns that argument verbatim
after exactly one language-model call, regardless of what further replies
the oracle could supply. -/
theorem finish_returns_response (m : AutoGPTModel) (st : AgentState)
    (reply fb : String) (rest : List (String × String)) (r : String)
    (hname : (m.parse reply).name = FINISH_NAME)
    (hresp : (m.parse reply).args.lookup "response" = some r) :
    AutoGPT.arun m st ((reply, fb) :: rest) =
      { outcome := .returned r
        finalState :=
          { st with history := st.history ++ [ChatMsg.human userInput, ChatMsg.ai reply] }
        llmCalls := 1 } := by
  have hstep : AutoGPT.step m st reply fb =
      .returned r
        { st with history := st.history ++ [ChatMsg.human userInput, ChatMsg.ai reply] } := by
    simp only [AutoGPT.step]
    rw [if_pos hname, hresp]
  simp only [AutoGPT.arun, hstep]

/-- Witness for C3: a finish action with args `{"response": "Done"}` makes
the loop return `"Done"` after one model call. -/
theorem finish_returns_response_witness :
    AutoGPT.arun mFinish { history := [], memory := [] } [("whatever", "")] =
      { outcome := .returned "Done"
        finalState := { history := [ChatMsg.human userInput, ChatMsg.ai "whatever"], memory := [] }
        llmCalls := 1 } :=
  finish_returns_response mFinish { history := [], memory := [] } "whatever" "" [] "Done"
    rfl rfl

/-- C9: when the parsed action's name is the finish sentinel but the
argument mapping has no `"response"` key, the iteration ends in an
uncaught `KeyError` instead of returning a result. -/
theorem finish_without_response_keyerror (m : AutoGPTModel) (st : AgentState)
    (reply fb : String) (rest : List (String × String))
    (hname : (m.parse reply).name = FINISH_NAME)
    (hresp : (m.parse reply).args.lookup "response" = none) :
    AutoGPT.arun m st ((reply, fb) :: rest) =
      { outcome := .keyError
        finalState :=
          { st with history := st.history ++ [ChatMsg.human userInput, ChatMsg.ai reply] }
        llmCalls := 1 } := by
  have hstep : AutoGPT.step m st reply fb =
      .keyError
        { st with history := st.history ++ [ChatMsg.human userInput, ChatMsg.ai reply] } := by
    simp only [AutoGPT.step]
    rw [if_pos hname, hresp]
  simp only [AutoGPT.arun, hstep]

/-- Witness for C9: a finish action whose args lack `"response"` raises. -/
theorem finish_without_response_keyerror_witness :
    AutoGPT.arun mNoResp { history := [], memory := [] } [("whatever", "")] =
      { outcome := .keyError
        finalState := { history := [ChatMsg.human userInput, ChatMsg.ai "whatever"], memory := [] }
        llmCalls := 1 } :=
  finish_without_response_keyerror mNoResp { history := [], memory := [] } "whatever" "" []
    rfl rfl

end ObsoleteAgent

namespace ObsoleteAgent

/-- C2 counterexample: a full iteration in which the dispatched action
succeeded (the `echo` tool ran and returned) but the human feedback was the
stop token `"q"`: the loop made one language-model call and terminated
with no memory document inserted and no system-role observation appended,
contradicting "exactly one ... per loop iteration". -/
theorem agent_iteration_records_once_counterexample :
    lookupTool mEcho.tools (mEcho.parse "r").name = some echoTool ∧
    echoTool.run (mEcho.parse "r").args = .ok "done" ∧
    AutoGPT.arun mEcho { history := [], memory := [] } [("r", "q")] =
      { outcome := .returned "EXITING"
        finalState := { history := [ChatMsg.human userInput, ChatMsg.ai "r"], memory := [] }
        llmCalls := 1 } := by
  refine ⟨rfl, rfl, ?_⟩
  decide

/-- C2 (amended): for every loop iteration that proceeds to the next
language-model call (i.e. does not terminate via the finish sentinel or a
human stop token), exactly one memory document is inserted and exactly one
system-role observation entry is appended, whatever the dispatch outcome;
and the transcript only ever grows across a run. -/
theorem agent_iteration_records_once (m : AutoGPTModel) (st : AgentState)
    (reply fb : String) (st' : AgentState)
    (h : AutoGPT.step m st reply fb = .next st') :
    (∃ doc, st'.memory = st.memory ++ [doc]) ∧
    (∃ res, st'.history =
        st.history ++ [ChatMsg.human userInput, ChatMsg.ai reply, ChatMsg.system res]) ∧
    (∀ oracle, ∃ tail,
        (AutoGPT.arun m st oracle).finalState.history = st.history ++ tail) := by
  refine ⟨?_, ?_, fun oracle => arun_history_extends m oracle st⟩
  · simp only [AutoGPT.step] at h
    split at h
    · split at h <;> simp at h
    · split at h
      · simp at h
      · injection h with h2
        subst h2
        exact ⟨_, rfl⟩
  · simp only [AutoGPT.step] at h
    split at h
    · split at h <;> simp at h
    · split at h
      · simp at h
      · injection h with h2
        subst h2
        refine ⟨dispatchResult m.tools (m.parse reply), ?_⟩
        simp [List.append_assoc]

end ObsoleteAgent

namespace ObsoleteAgent

/-- Witness for the amended C2 at a concrete iteration that continues. -/
theorem agent_iteration_records_once_witness :
    (∃ doc, ((AutoGPT.step mEcho { history := [], memory := [] } "r" "ok").state).memory =
        ([] : List String) ++ [doc]) ∧
    (∃ res, ((AutoGPT.step mEcho { history := [], memory := [] } "r" "ok").state).history =
        ([] : List ChatMsg) ++ [ChatMsg.human userInput, ChatMsg.ai "r", ChatMsg.system res]) ∧
    (∃ tail, (AutoGPT.arun mEcho { history := [], memory := [] } [("r", "ok")]).finalState.history =
        ([] : List ChatMsg) ++ tail) := by
  have h := agent_iteration_records_once mEcho { history := [], memory := [] } "r" "ok"
    ((AutoGPT.step mEcho { history := [], memory := [] } "r" "ok").state) (by decide)
  exact ⟨h.1, h.2.1, h.2.2 [("r", "ok")]⟩

/-- C5: with a feedback tool configured and a non-finish action, a stop
token (`"q"` or `"stop"`) makes the loop return the sentinel `"EXITING"`
at once, leaving the memory store untouched; any other feedback text is
appended to the memory document that the continuing iteration inserts. -/
theorem feedback_stop_token (m : AutoGPTModel) (st : AgentState)
    (reply fb : String) (rest : List (String × String))
    (hfb : m.hasFeedback = true)
    (hnf : (m.parse reply).name ≠ FINISH_NAME) :
    ((fb = "q" ∨ fb = "stop") →
      AutoGPT.arun m st ((reply, fb) :: rest) =
        { outcome := .returned "EXITING"
          finalState :=
            { st with history := st.history ++ [ChatMsg.human userInput, ChatMsg.ai reply] }
          llmCalls := 1 }) ∧
    (¬(fb = "q" ∨ fb = "stop") →
      AutoGPT.step m st reply fb =
        .next { history := st.history ++ [ChatMsg.human userInput, ChatMsg.ai reply,
                  ChatMsg.system (dispatchResult m.tools (m.parse reply))]
                memory := st.memory ++ [memoryDoc m reply ++ "\n" ++ fb] }) := by
  constructor
  · intro hstop
    have hstep : AutoGPT.step m st reply fb =
        .returned "EXITING"
          { st with history := st.history ++ [ChatMsg.human userInput, ChatMsg.ai reply] } := by
      simp only [AutoGPT.step]
      rw [if_neg hnf, if_pos ⟨hfb, hstop⟩]
    simp only [AutoGPT.arun, hstep]
  · intro hstop
    simp only [AutoGPT.step]
    rw [if_neg hnf, if_neg (fun hc => hstop hc.2), if_pos hfb]
    simp [List.append_assoc]

/-- Witness for C5: stop token `"q"` exits without inserting memory; the
feedback `"ok"` is appended to the inserted document. -/
theorem feedback_stop_token_witness :
    (AutoGPT.arun mEcho { history := [], memory := [] } [("r", "q")] =
      { outcome := .returned "EXITING"
        finalState := { history := [ChatMsg.human userInput, ChatMsg.ai "r"], memory := [] }
        llmCalls := 1 }) ∧
    (AutoGPT.step mEcho { history := [], memory := [] } "r" "ok" =
      .next { history := [ChatMsg.human userInput, ChatMsg.ai "r",
                ChatMsg.system (dispatchResult mEcho.tools (mEcho.parse "r"))]
              memory := [memoryDoc mEcho "r" ++ "\n" ++ "ok"] }) :=
  ⟨(feedback_stop_token mEcho { history := [], memory := [] } "r" "q" [] rfl
      (by decide)).1 (Or.inl rfl),
   (feedback_stop_token mEcho { history := [], memory := [] } "r" "ok" [] rfl
      (by decide)).2 (by decide)⟩

end ObsoleteAgent

namespace ObsoleteAgent

/-- C6: when the dispatched tool raises, the exception is converted into a
textual observation recorded on the transcript (the loop continues rather
than propagating), and the two failure classes carry distinct prefixes:
argument-validation failures yield an observation beginning
"Validation Error in args: ", any other exception one beginning
"Error: ". -/
theorem tool_exception_observations (m : AutoGPTModel) (st : AgentState)
    (reply fb : String) (t : AgentTool)
    (hnf : (m.parse reply).name ≠ FINISH_NAME)
    (hfind : lookupTool m.tools (m.parse reply).name = some t)
    (hstop : ¬(m.hasFeedback ∧ (fb = "q" ∨ fb = "stop"))) :
    (∃ st', AutoGPT.step m st reply fb = .next st' ∧
        st'.history = st.history ++ [ChatMsg.human userInput, ChatMsg.ai reply,
          ChatMsg.system ("Command " ++ t.name ++ " returned: " ++
            toolObservation t (m.parse reply).args)]) ∧
    (∀ e, t.run (m.parse reply).args = .validationError e →
        ∃ s, toolObservation t (m.parse reply).args = "Validation Error in args: " ++ s) ∧
    (∀ ty e, t.run (m.parse reply).args = .raised ty e →
        ∃ s, toolObservation t (m.parse reply).args = "Error: " ++ s) := by
  have hdisp : dispatchResult m.tools (m.parse reply) =
      "Command " ++ t.name ++ " returned: " ++ toolObservation t (m.parse reply).args := by
    unfold dispatchResult
    rw [hfind]
  refine ⟨?_, ?_, ?_⟩
  · simp only [AutoGPT.step]
    rw [if_neg hnf, if_neg hstop]
    refine ⟨_, rfl, ?_⟩
    simp [hdisp, List.append_assoc]
  · intro e he
    refine ⟨e ++ (", args: " ++ argsRepr (m.parse reply).args), ?_⟩
    unfold toolObservation
    rw [he, ← String.append_assoc, ← String.append_assoc]
  · intro ty e he
    refine ⟨e ++ (", " ++ (ty ++ (", args: " ++ argsRepr (m.parse reply).args))), ?_⟩
    unfold toolObservation
    rw [he]
    rw [← String.append_assoc, ← String.append_assoc, ← String.append_assoc,
      ← String.append_assoc]

/-- Witness for C6: a validation failure and a general exception at
concrete iterations, with their distinct observation prefixes. -/
theorem tool_exception_observations_witness :
    (∃ st', AutoGPT.step mVal { history := [], memory := [] } "r" "" = .next st' ∧
        st'.history = [ChatMsg.human userInput, ChatMsg.ai "r",
          ChatMsg.system ("Command " ++ valTool.name ++ " returned: " ++
            toolObservation valTool (mVal.parse "r").args)]) ∧
    (∃ s, toolObservation valTool (mVal.parse "r").args =
        "Validation Error in args: " ++ s) ∧
    (∃ s, toolObservation boomTool (mBoom.parse "r").args = "Error: " ++ s) :=
  ⟨(tool_exception_observations mVal { history := [], memory := [] } "r" "" valTool
      (by decide) rfl (by decide)).1,
   (tool_exception_observations mVal { history := [], memory := [] } "r" "" valTool
      (by decide) rfl (by decide)).2.1 "field required" rfl,
   (tool_exception_observations mBoom { history := [], memory := [] } "r" "" boomTool
      (by decide) rfl (by decide)).2.2 "FileNotFoundError" "missing" rfl⟩

/-- C7 counterexample: the parsed action name `"ERROR"` matches neither a
registered tool nor the finish sentinel, yet the appended observation is
`"Error: {}. "` — not an "Unknown command" observation. -/
theorem unknown_command_observation_counterexample :
    (mErrSentinel.parse "r").name ≠ FINISH_NAME ∧
    lookupTool mErrSentinel.tools (mErrSentinel.parse "r").name = none ∧
    AutoGPT.step mErrSentinel { history := [], memory := [] } "r" "" =
      .next { history := [ChatMsg.human userInput, ChatMsg.ai "r",
                ChatMsg.system "Error: \x7b\x7d. "]
              memory := ["Assistant Reply: r \nResult: Error: \x7b\x7d.  "] } ∧
    strStartsWith "Unknown command" "Error: \x7b\x7d. " = false := by
  refine ⟨by decide, rfl, ?_, by decide⟩
  decide

/-- C7 (amended): when the parsed action's name matches neither a
registered tool, nor the finish sentinel, nor the `"ERROR"` parse-failure
sentinel, the loop does not throw: it appends the "Unknown command"
observation instructing the model to choose from the advertised command
list and proceeds. -/
theorem unknown_command_observation (m : AutoGPTModel) (st : AgentState)
    (reply fb : String)
    (hnf : (m.parse reply).name ≠ FINISH_NAME)
    (hlook : lookupTool m.tools (m.parse reply).name = none)
    (herr : (m.parse reply).name ≠ "ERROR")
    (hstop : ¬(m.hasFeedback ∧ (fb = "q" ∨ fb = "stop"))) :
    ∃ st', AutoGPT.step m st reply fb = .next st' ∧
      st'.history = st.history ++ [ChatMsg.human userInput, ChatMsg.ai reply,
        ChatMsg.system ("Unknown command \x27" ++ (m.parse reply).name ++
          "\x27. Please refer to the " ++
          "\x27COMMANDS\x27 list for available commands and only respond " ++
          "in the specified JSON format.")] := by
  have hdisp : dispatchResult m.tools (m.parse reply) =
      "Unknown command \x27" ++ (m.parse reply).name ++ "\x27. Please refer to the " ++
        "\x27COMMANDS\x27 list for available commands and only respond " ++
        "in the specified JSON format." := by
    unfold dispatchResult
    rw [hlook]
    exact if_neg herr
  simp only [AutoGPT.step]
  rw [if_neg hnf, if_neg hstop]
  refine ⟨_, rfl, ?_⟩
  simp [hdisp, List.append_assoc]

/-- Witness for the amended C7 at a concrete unknown command. -/
theorem unknown_command_observation_witness :
    ∃ st', AutoGPT.step mUnknown { history := [], memory := [] } "r" "" = .next st' ∧
      st'.history = [ChatMsg.human userInput, ChatMsg.ai "r",
        ChatMsg.system ("Unknown command \x27" ++ (mUnknown.parse "r").name ++
          "\x27. Please refer to the " ++
          "\x27COMMANDS\x27 list for available commands and only respond " ++
          "in the specified JSON format.")] :=
  unknown_command_observation mUnknown { history := [], memory := [] } "r" ""
    (by decide) rfl (by decide) (by decide)

/-- C10: the dispatch table is built solely from the tools passed to the
constructor — the human feedback tool, although advertised in the prompt's
tool list, is never dispatchable — so an action named `"Human"` falls to
the unknown-command branch whenever no constructor tool bears that name. -/
theorem human_tool_not_dispatchable (ts : List AgentTool)
    (parse : String → AgentAction)
    (h : ∀ t ∈ ts, t.name ≠ humanToolName) :
    (AutoGPT.from_llm_and_tools ts parse).tools = ts ∧
    humanToolName ∈ (AutoGPT.from_llm_and_tools ts parse).promptToolNames ∧
    lookupTool (AutoGPT.from_llm_and_tools ts parse).tools humanToolName = none ∧
    (∀ args, dispatchResult (AutoGPT.from_llm_and_tools ts parse).tools
        { name := humanToolName, args := args } =
      "Unknown command \x27" ++ humanToolName ++ "\x27. Please refer to the " ++
        "\x27COMMANDS\x27 list for available commands and only respond " ++
        "in the specified JSON format.") := by
  have hlook : lookupTool ts humanToolName = none := by
    unfold lookupTool
    apply List.find?_eq_none.mpr
    intro t ht
    simpa using h t (List.mem_reverse.mp ht)
  refine ⟨rfl, ?_, hlook, ?_⟩
  · unfold AutoGPT.from_llm_and_tools
    simp
  · intro args
    unfold dispatchResult
    have hn : ({ name := humanToolName, args := args } : AgentAction).name = humanToolName :=
      rfl
    rw [hn, show (AutoGPT.from_llm_and_tools ts parse).tools = ts from rfl, hlook]
    exact if_neg (show ¬(humanToolName = "ERROR") from by decide)

/-- Witness for C10: with the `echo` tool registered, an action named
`"Human"` is not dispatchable and yields the unknown-command observation. -/
theorem human_tool_not_dispatchable_witness :
    (AutoGPT.from_llm_and_tools [echoTool] (parseConst { name := humanToolName, args := [] })).tools
        = [echoTool] ∧
    humanToolName ∈ (AutoGPT.from_llm_and_tools [echoTool]
        (parseConst { name := humanToolName, args := [] })).promptToolNames ∧
    lookupTool (AutoGPT.from_llm_and_tools [echoTool]
        (parseConst { name := humanToolName, args := [] })).tools humanToolName = none ∧
    dispatchResult (AutoGPT.from_llm_and_tools [echoTool]
        (parseConst { name := humanToolName, args := [] })).tools
        { name := humanToolName, args := [] } =
      "Unknown command \x27" ++ humanToolName ++ "\x27. Please refer to the " ++
        "\x27COMMANDS\x27 list for available commands and only respond " ++
        "in the specified JSON format." := by
  have h := human_tool_not_dispatchable [echoTool]
    (parseConst { name := humanToolName, args := [] }) (by decide)
  exact ⟨h.1, h.2.1, h.2.2.1, h.2.2.2 []⟩

end ObsoleteAgent
